import Mathlib

/-!
Shallow embedding of the rspirv memory-representation `Builder`
(`src/rspirv/mr/builder.rs`): identifier allocation, the function /
basic-block nesting state machine, module-level instruction emitters,
and the type/constant interning cache.

Machine integers: the id counter is a Rust `u32`; it is modelled as a
`Nat` reduced modulo `2^32` at each increment.
-/

namespace Rspirv

/-- Cardinality of `u32`; the id counter wraps at this bound. -/
def wordCap : Nat := 4294967296

/-- Opcodes used by the builder (the subset of `spirv::Op` that the
embedded operations construct). -/
inductive Op where
  | Function
  | FunctionEnd
  | Label
  | Capability
  | Extension
  | ExtInstImport
  | MemoryModel
  | EntryPoint
  | ExecutionMode
  | Decorate
  | MemberDecorate
  | DecorationGroup
  | GroupDecorate
  | GroupMemberDecorate
  | Return
  | TypeVoid
  | TypeInt
  | TypeFloat
  | TypeVector
  | TypePointer
deriving DecidableEq

/-- Operands (`mr::Operand`); enumerant payloads (`spirv::Capability`,
`spirv::Decoration`, ...) are opaque to the builder and modelled as `Nat`. -/
inductive Operand where
  | FunctionControl (v : Nat)
  | IdRef (v : Nat)
  | LiteralString (s : String)
  | Capability (v : Nat)
  | AddressingModel (v : Nat)
  | MemoryModel (v : Nat)
  | ExecutionModel (v : Nat)
  | ExecutionMode (v : Nat)
  | LiteralInt32 (v : Nat)
  | Decoration (v : Nat)
  | StorageClass (v : Nat)
deriving DecidableEq

/-- Modelled from the spec: `mr::Instruction` (its defining file is not under
`src/`): an operation kind, an optional result type, an optional result
identifier, and an ordered operand list. -/
structure Instruction where
  opcode : Op
  result_type : Option Nat
  result_id : Option Nat
  operands : List Operand
deriving DecidableEq

/-- `mr::Instruction::new(op, result_type, result_id, operands)`. -/
def Instruction.new (opcode : Op) (result_type result_id : Option Nat)
    (operands : List Operand) : Instruction :=
  ⟨opcode, result_type, result_id, operands⟩

/-- Modelled from the spec: `mr::BasicBlock` (not under `src/`): a label
instruction plus an ordered list of body instructions. -/
structure BasicBlock where
  label : Option Instruction
  instructions : List Instruction
deriving DecidableEq

/-- `mr::BasicBlock::new()`. -/
def BasicBlock.new : BasicBlock := ⟨none, []⟩

/-- Modelled from the spec: `mr::Function` (not under `src/`): a
function-begin instruction (`def`), a function-end instruction (`end`),
and the list of finished basic blocks. The Rust field names `def` and
`end` are Lean keywords and are rendered `fdef` and `fend`. -/
structure Function where
  fdef : Option Instruction
  fend : Option Instruction
  basic_blocks : List BasicBlock
deriving DecidableEq

/-- `mr::Function::new()`. -/
def Function.new : Function := ⟨none, none, []⟩

/-- Modelled from the spec: `mr::Module` (not under `src/`): one ordered
collection per module section, in the fixed section order of the spec. -/
structure Module where
  capabilities : List Instruction
  extensions : List Instruction
  ext_inst_imports : List Instruction
  memory_model : Option Instruction
  entry_points : List Instruction
  execution_modes : List Instruction
  annotations : List Instruction
  types_global_values : List Instruction
  functions : List Function
deriving DecidableEq

/-- `mr::Module::new()`: all sections empty. -/
def Module.new : Module := ⟨[], [], [], none, [], [], [], [], []⟩

/-- Modelled from the spec: `mr::build::Error` (not under `src/`), the
caller-usage error taxonomy of §7. -/
inductive Error where
  | NestedFunction
  | MismatchedFunctionEnd
  | DetachedBasicBlock
  | NestedBasicBlock
  | MismatchedTerminator
deriving DecidableEq

/-- The builder (`Builder` in `builder.rs`): the module under construction,
the next fresh id, and the optional in-progress function and basic block. -/
structure Builder where
  module : Module
  next_id : Nat
  function : Option Function
  basic_block : Option BasicBlock
deriving DecidableEq

/-- Outcome of a fallible builder operation on `&mut self`: `ok`/`err`
carry the post-state builder; `fatal` models a Rust panic (an `unwrap`
of `None`), which aborts instead of returning. -/
inductive BuildResult (α : Type) where
  | ok (val : α) (b : Builder)
  | err (e : Error) (b : Builder)
  | fatal
deriving DecidableEq

/-- Whether a `BuildResult` is a success. -/
def BuildResult.isOk {α : Type} : BuildResult α → Bool
  | .ok _ _ => true
  | _ => false

/-- Whether a `BuildResult` is a returned error. -/
def BuildResult.isErr {α : Type} : BuildResult α → Bool
  | .err _ _ => true
  | _ => false

/-- The post-state builder of a non-fatal `BuildResult` (`Builder.new`
as a dummy in the `fatal` case, which aborts in Rust). -/
def BuildResult.bOf {α : Type} : BuildResult α → Builder
  | .ok _ b => b
  | .err _ b => b
  | .fatal => ⟨Module.new, 1, none, none⟩

/-- The returned value of a successful `BuildResult`. -/
def BuildResult.valOf {α : Type} : BuildResult α → Option α
  | .ok v _ => some v
  | _ => none

/-- `Builder::new()`. -/
def Builder.new : Builder :=
  { module := Module.new, next_id := 1, function := none, basic_block := none }

/-- `Builder::module(self)`: hands the accumulated module to the caller. -/
def Builder.module' (b : Builder) : Module := b.module

/-- `Builder::id(&mut self)`: returns the current counter value and
advances the counter (u32 increment, hence the modulus). -/
def Builder.id (b : Builder) : Nat × Builder :=
  (b.next_id, { b with next_id := (b.next_id + 1) % wordCap })

/-- `Builder::begin_function`: fails with `NestedFunction` if a function is
already open; otherwise allocates an id, stores the `OpFunction`
instruction in a fresh in-progress function, and returns the id. -/
def Builder.begin_function (b : Builder) (return_type control function_type : Nat) :
    BuildResult Nat :=
  match b.function with
  | some _ => .err .NestedFunction b
  | none =>
    let p := b.id
    let f : Function :=
      { Function.new with
          fdef := some (Instruction.new .Function (some return_type) (some p.1)
            [.FunctionControl control, .IdRef function_type]) }
    .ok p.1 { p.2 with function := some f }

/-- `Builder::end_function`: fails with `MismatchedFunctionEnd` if no
function is open; otherwise stamps the `OpFunctionEnd` instruction, moves
the function into the module's function list, and clears the slot. The
open-block slot is not examined. -/
def Builder.end_function (b : Builder) : BuildResult Unit :=
  match b.function with
  | none => .err .MismatchedFunctionEnd b
  | some f =>
    let f' := { f with fend := some (Instruction.new .FunctionEnd none none []) }
    .ok () { b with
              function := none,
              module := { b.module with functions := b.module.functions ++ [f'] } }

/-- `Builder::begin_basic_block`: fails with `DetachedBasicBlock` if no
function is open, then with `NestedBasicBlock` if a block is already open;
otherwise allocates an id, opens a block whose label is an `OpLabel`
instruction, and returns the id. (As in the source, the allocated id is
returned but not recorded in the label instruction.) -/
def Builder.begin_basic_block (b : Builder) : BuildResult Nat :=
  match b.function with
  | none => .err .DetachedBasicBlock b
  | some _ =>
    match b.basic_block with
    | some _ => .err .NestedBasicBlock b
    | none =>
      let p := b.id
      let bb : BasicBlock :=
        { BasicBlock.new with label := some (Instruction.new .Label none none []) }
      .ok p.1 { p.2 with basic_block := some bb }

/-- `Builder::end_basic_block(inst)`: fails with `MismatchedTerminator` if
no block is open; otherwise appends the terminator to the open block and
moves the block into the in-progress function's block list. The source
`unwrap`s the function slot, so with a block open but no function open it
panics (`fatal`). -/
def Builder.end_basic_block (b : Builder) (inst : Instruction) : BuildResult Unit :=
  match b.basic_block with
  | none => .err .MismatchedTerminator b
  | some bb =>
    match b.function with
    | none => .fatal
    | some f =>
      let bb' := { bb with instructions := bb.instructions ++ [inst] }
      let f' := { f with basic_blocks := f.basic_blocks ++ [bb'] }
      .ok () { b with basic_block := none, function := some f' }

/-- `Builder::capability`. -/
def Builder.capability (b : Builder) (capability : Nat) : Builder :=
  let inst := Instruction.new .Capability none none [.Capability capability]
  { b with module := { b.module with capabilities := b.module.capabilities ++ [inst] } }

/-- `Builder::extension`. -/
def Builder.extension (b : Builder) (ext : String) : Builder :=
  let inst := Instruction.new .Extension none none [.LiteralString ext]
  { b with module := { b.module with extensions := b.module.extensions ++ [inst] } }

/-- `Builder::ext_inst_import`: allocates a result id. -/
def Builder.ext_inst_import (b : Builder) (extended_inst_set : String) : Nat × Builder :=
  let p := b.id
  let inst := Instruction.new .ExtInstImport none (some p.1)
    [.LiteralString extended_inst_set]
  (p.1, { p.2 with
            module := { p.2.module with
                          ext_inst_imports := p.2.module.ext_inst_imports ++ [inst] } })

/-- `Builder::memory_model`: stores the `OpMemoryModel` instruction into the
module's single memory-model slot. -/
def Builder.memory_model (b : Builder) (addressing_model mm : Nat) : Builder :=
  let inst := Instruction.new .MemoryModel none none
    [.AddressingModel addressing_model, .MemoryModel mm]
  { b with module := { b.module with memory_model := some inst } }

/-- `Builder::entry_point`. -/
def Builder.entry_point (b : Builder) (execution_model entry_point : Nat)
    (name : String) (interface : List Nat) : Builder :=
  let operands := [Operand.ExecutionModel execution_model, Operand.IdRef entry_point,
                   Operand.LiteralString name] ++ interface.map Operand.IdRef
  let inst := Instruction.new .EntryPoint none none operands
  { b with module := { b.module with entry_points := b.module.entry_points ++ [inst] } }

/-- `Builder::execution_mode`. -/
def Builder.execution_mode (b : Builder) (entry_point execution_mode : Nat)
    (params : List Nat) : Builder :=
  let operands := [Operand.IdRef entry_point, Operand.ExecutionMode execution_mode] ++
                  params.map Operand.LiteralInt32
  let inst := Instruction.new .ExecutionMode none none operands
  { b with module := { b.module with
                         execution_modes := b.module.execution_modes ++ [inst] } }

/-- `Builder::decorate`: allocates a result id and appends an `OpDecorate`
instruction to the annotations section. -/
def Builder.decorate (b : Builder) (target decoration : Nat)
    (params : List Operand) : Nat × Builder :=
  let p := b.id
  let operands := [Operand.IdRef target, Operand.Decoration decoration] ++ params
  let inst := Instruction.new .Decorate none (some p.1) operands
  (p.1, { p.2 with
            module := { p.2.module with
                          annotations := p.2.module.annotations ++ [inst] } })

/-- `Builder::member_decorate`. -/
def Builder.member_decorate (b : Builder) (structure_ member decoration : Nat)
    (params : List Operand) : Nat × Builder :=
  let p := b.id
  let operands := [Operand.IdRef structure_, Operand.IdRef member,
                   Operand.Decoration decoration] ++ params
  let inst := Instruction.new .MemberDecorate none (some p.1) operands
  (p.1, { p.2 with
            module := { p.2.module with
                          annotations := p.2.module.annotations ++ [inst] } })

/-- `Builder::decoration_group`. -/
def Builder.decoration_group (b : Builder) : Nat × Builder :=
  let p := b.id
  let inst := Instruction.new .DecorationGroup none (some p.1) []
  (p.1, { p.2 with
            module := { p.2.module with
                          annotations := p.2.module.annotations ++ [inst] } })

/-- `Builder::group_decorate`: allocates a result id and appends an
`OpGroupDecorate` instruction to the annotations section. -/
def Builder.group_decorate (b : Builder) (group : Nat) (targets : List Nat) :
    Nat × Builder :=
  let p := b.id
  let operands := Operand.IdRef group :: targets.map Operand.IdRef
  let inst := Instruction.new .GroupDecorate none (some p.1) operands
  (p.1, { p.2 with
            module := { p.2.module with
                          annotations := p.2.module.annotations ++ [inst] } })

/-- `Builder::group_member_decorate`. -/
def Builder.group_member_decorate (b : Builder) (group : Nat)
    (targets : List (Nat × Nat)) : Nat × Builder :=
  let p := b.id
  let operands := Operand.IdRef group ::
    (targets.map (fun t => [Operand.IdRef t.1, Operand.LiteralInt32 t.2])).flatten
  let inst := Instruction.new .GroupMemberDecorate none (some p.1) operands
  (p.1, { p.2 with
            module := { p.2.module with
                          annotations := p.2.module.annotations ++ [inst] } })

/-- Modelled from the spec: the terminator emitters of `build_terminator.rs`
(included via `include!`, not under `src/`) construct a terminator
instruction with no result id and delegate to `end_basic_block` (§4.5);
`ret` emits the return-void terminator. -/
def Builder.ret (b : Builder) : BuildResult Unit :=
  b.end_basic_block (Instruction.new .Return none none [])

/-- Modelled from the spec: structural descriptions of types (§4.3), the
interning keys of `build_type.rs` (not under `src/`): a kind tag plus
constituent operand values/ids, compared by value equality. -/
inductive TypeDescr where
  | void
  | int (width signedness : Nat)
  | float (width : Nat)
  | vector (component_type count : Nat)
  | pointer (storage_class pointee : Nat)
deriving DecidableEq

/-- Opcode of the declaration instruction for a structural description. -/
def TypeDescr.opcode : TypeDescr → Op
  | .void => .TypeVoid
  | .int _ _ => .TypeInt
  | .float _ => .TypeFloat
  | .vector _ _ => .TypeVector
  | .pointer _ _ => .TypePointer

/-- Operand list of the declaration instruction for a structural description. -/
def TypeDescr.operands : TypeDescr → List Operand
  | .void => []
  | .int w s => [.LiteralInt32 w, .LiteralInt32 s]
  | .float w => [.LiteralInt32 w]
  | .vector c n => [.IdRef c, .LiteralInt32 n]
  | .pointer sc p => [.StorageClass sc, .IdRef p]

/-- The declaration instruction emitted for a structural description. -/
def TypeDescr.toInstruction (d : TypeDescr) (result_id : Option Nat) : Instruction :=
  Instruction.new d.opcode none result_id d.operands

/-- Structural match of an emitted declaration against a description:
same opcode and same operand list (result id disregarded). -/
def matchesDescr (d : TypeDescr) (i : Instruction) : Bool :=
  i.opcode == d.opcode && i.operands == d.operands

/-- Modelled from the spec: `intern(typeDescription) -> Identifier` (§4.3),
the contract of the type-building methods of `build_type.rs` (not under
`src/`): look up an existing declaration by structural equality in the
types/constants section; if found return its id without emitting; if
absent allocate a fresh id, emit the declaration into the section, and
return the new id. -/
def Builder.intern (b : Builder) (d : TypeDescr) : Nat × Builder :=
  match b.module.types_global_values.find? (matchesDescr d) with
  | some i => (i.result_id.getD 0, b)
  | none =>
    let p := b.id
    (p.1, { p.2 with
              module := { p.2.module with
                            types_global_values :=
                              p.2.module.types_global_values ++
                                [d.toInstruction (some p.1)] } })

/-- Runs a sequence of interning requests, returning the final builder and
the identifiers returned for each request in order. -/
def runIntern (b : Builder) : List TypeDescr → Builder × List Nat
  | [] => (b, [])
  | d :: ds =>
    let p := b.intern d
    let q := runIntern p.2 ds
    (q.1, p.1 :: q.2)

/-- One builder operation, for quantifying over arbitrary call sequences. -/
inductive BuilderOp where
  | beginFunction (return_type control function_type : Nat)
  | endFunction
  | beginBasicBlock
  | terminatorOp (inst : Instruction)
  | capabilityOp (c : Nat)
  | extensionOp (s : String)
  | extInstImportOp (s : String)
  | memoryModelOp (am mm : Nat)
  | entryPointOp (em ep : Nat) (name : String) (iface : List Nat)
  | executionModeOp (ep m : Nat) (ps : List Nat)
  | decorateOp (t d : Nat) (ps : List Operand)
  | memberDecorateOp (s m d : Nat) (ps : List Operand)
  | decorationGroupOp
  | groupDecorateOp (g : Nat) (ts : List Nat)
  | groupMemberDecorateOp (g : Nat) (ts : List (Nat × Nat))
  | internOp (d : TypeDescr)
  | retOp

/-- Executes one operation; returns the post-state builder and the list of
identifiers the operation allocated (empty or a singleton), or `none` when
the operation panics. Returned errors carry the post-state builder. -/
def step (b : Builder) : BuilderOp → Option (Builder × List Nat)
  | .beginFunction rt c ft =>
    match b.begin_function rt c ft with
    | .ok id b' => some (b', [id])
    | .err _ b' => some (b', [])
    | .fatal => none
  | .endFunction =>
    match b.end_function with
    | .ok _ b' => some (b', [])
    | .err _ b' => some (b', [])
    | .fatal => none
  | .beginBasicBlock =>
    match b.begin_basic_block with
    | .ok id b' => some (b', [id])
    | .err _ b' => some (b', [])
    | .fatal => none
  | .terminatorOp inst =>
    match b.end_basic_block inst with
    | .ok _ b' => some (b', [])
    | .err _ b' => some (b', [])
    | .fatal => none
  | .capabilityOp c => some (b.capability c, [])
  | .extensionOp s => some (b.extension s, [])
  | .extInstImportOp s =>
    let p := b.ext_inst_import s
    some (p.2, [p.1])
  | .memoryModelOp am mm => some (b.memory_model am mm, [])
  | .entryPointOp em ep name iface => some (b.entry_point em ep name iface, [])
  | .executionModeOp ep m ps => some (b.execution_mode ep m ps, [])
  | .decorateOp t d ps =>
    let p := b.decorate t d ps
    some (p.2, [p.1])
  | .memberDecorateOp s m d ps =>
    let p := b.member_decorate s m d ps
    some (p.2, [p.1])
  | .decorationGroupOp =>
    let p := b.decoration_group
    some (p.2, [p.1])
  | .groupDecorateOp g ts =>
    let p := b.group_decorate g ts
    some (p.2, [p.1])
  | .groupMemberDecorateOp g ts =>
    let p := b.group_member_decorate g ts
    some (p.2, [p.1])
  | .internOp d =>
    match b.module.types_global_values.find? (matchesDescr d) with
    | some _ => some ((b.intern d).2, [])
    | none =>
      let p := b.intern d
      some (p.2, [p.1])
  | .retOp =>
    match b.ret with
    | .ok _ b' => some (b', [])
    | .err _ b' => some (b', [])
    | .fatal => none

/-- Runs a sequence of operations from a builder; a panic aborts the run.
Returns the final builder and all allocated identifiers in order. -/
def run (b : Builder) : List BuilderOp → Builder × List Nat
  | [] => (b, [])
  | op :: ops =>
    match step b op with
    | none => (b, [])
    | some (b', ids) =>
      let q := run b' ops
      (q.1, ids ++ q.2)

/-! Ghost model of the interning cache: an association list from structural
descriptions to identifiers, in first-interned order. -/

/-- Declarations emitted for an interning map: one instruction per entry. -/
def declsOf (m : List (TypeDescr × Nat)) : List Instruction :=
  m.map (fun p => p.1.toInstruction (some p.2))

/-- Lookup in the ghost interning map. -/
def mlookup (m : List (TypeDescr × Nat)) (d : TypeDescr) : Option Nat :=
  (m.find? (fun p => p.1 == d)).map Prod.snd

/-- Ghost interning step: return the existing id, or bind the next one. -/
def mintern (m : List (TypeDescr × Nat)) (d : TypeDescr) :
    List (TypeDescr × Nat) × Nat :=
  match mlookup m d with
  | some v => (m, v)
  | none => (m ++ [(d, m.length + 1)], m.length + 1)

/-- Ghost run of a sequence of interning requests. -/
def mrun (m : List (TypeDescr × Nat)) : List TypeDescr → List (TypeDescr × Nat) × List Nat
  | [] => (m, [])
  | d :: ds =>
    let p := mintern m d
    let q := mrun p.1 ds
    (q.1, p.2 :: q.2)

/-- Well-formedness of the ghost map: no duplicate keys, and the bound
identifiers are exactly `1, 2, ...` in order. -/
def Minv (m : List (TypeDescr × Nat)) : Prop :=
  (m.map Prod.fst).Nodup ∧ m.map Prod.snd = List.range' 1 m.length

theorem matchesDescr_toInstruction_iff (d e : TypeDescr) (o : Option Nat) :
    matchesDescr d (e.toInstruction o) = true ↔ e = d := by
  cases d <;> cases e <;>
    simp [matchesDescr, TypeDescr.toInstruction, Instruction.new, TypeDescr.opcode,
      TypeDescr.operands, and_assoc]

theorem matchesDescr_toInstruction (d e : TypeDescr) (o : Option Nat) :
    matchesDescr d (e.toInstruction o) = (e == d) := by
  cases h : e == d
  · simp only [beq_eq_false_iff_ne, ne_eq] at h
    rw [Bool.eq_false_iff]
    exact fun hc => h ((matchesDescr_toInstruction_iff d e o).mp hc)
  · simp only [beq_iff_eq] at h
    simpa [matchesDescr_toInstruction_iff] using h

theorem find?_declsOf (m : List (TypeDescr × Nat)) (d : TypeDescr) :
    (declsOf m).find? (matchesDescr d) =
      (m.find? (fun p => p.1 == d)).map (fun p => p.1.toInstruction (some p.2)) := by
  unfold declsOf
  rw [List.find?_map]
  have hp : (matchesDescr d ∘ fun p : TypeDescr × Nat => p.1.toInstruction (some p.2)) =
      fun p : TypeDescr × Nat => p.1 == d :=
    funext fun p => matchesDescr_toInstruction d p.1 (some p.2)
  rw [hp]

theorem mlookup_eq_none_iff (m : List (TypeDescr × Nat)) (d : TypeDescr) :
    mlookup m d = none ↔ d ∉ m.map Prod.fst := by
  unfold mlookup
  rw [Option.map_eq_none', List.find?_eq_none]
  constructor
  · intro h hmem
    obtain ⟨p, hp, hpd⟩ := List.mem_map.mp hmem
    exact h p hp (by simp [hpd])
  · intro h p hp hpd
    simp only [beq_iff_eq] at hpd
    exact h (List.mem_map.mpr ⟨p, hp, hpd⟩)

theorem mlookup_mem {m : List (TypeDescr × Nat)} {d : TypeDescr} {v : Nat} :
    mlookup m d = some v → (d, v) ∈ m := by
  unfold mlookup
  intro h
  cases hf : m.find? (fun p => p.1 == d) with
  | none => simp [hf] at h
  | some p =>
    rw [hf] at h
    have hmem := List.mem_of_find?_eq_some hf
    have hpred := List.find?_some hf
    simp only [beq_iff_eq] at hpred
    simp only [Option.map_some', Option.some.injEq] at h
    obtain ⟨p1, p2⟩ := p
    simp only at hpred h
    rw [hpred, h] at hmem
    exact hmem

theorem mintern_lookup_self (m : List (TypeDescr × Nat)) (d : TypeDescr) :
    mlookup (mintern m d).1 d = some (mintern m d).2 := by
  unfold mintern
  cases h : mlookup m d with
  | some v => simpa using h
  | none =>
    simp only
    unfold mlookup at h ⊢
    rw [List.find?_append]
    have hfind : m.find? (fun p => p.1 == d) = none := by
      cases hf : m.find? (fun p => p.1 == d)
      · rfl
      · rw [hf] at h; simp at h
    simp [hfind, List.find?]

theorem mintern_mono {m : List (TypeDescr × Nat)} {e : TypeDescr} {v : Nat}
    (d : TypeDescr) (h : mlookup m e = some v) :
    mlookup (mintern m d).1 e = some v := by
  unfold mintern
  cases hl : mlookup m d with
  | some w => simpa using h
  | none =>
    simp only
    unfold mlookup at h ⊢
    rw [List.find?_append]
    cases hf : m.find? (fun p => p.1 == e) with
    | none => rw [hf] at h; simp at h
    | some p => rw [hf] at h; simp [h]

theorem mrun_mono (ds : List TypeDescr) :
    ∀ m e v, mlookup m e = some v → mlookup (mrun m ds).1 e = some v := by
  induction ds with
  | nil => intro m e v h; simpa [mrun] using h
  | cons d ds ih =>
    intro m e v h
    simpa [mrun] using ih (mintern m d).1 e v (mintern_mono d h)

theorem Minv_nil : Minv [] := by constructor <;> simp

theorem Minv_mintern (m : List (TypeDescr × Nat)) (d : TypeDescr) (h : Minv m) :
    Minv (mintern m d).1 := by
  obtain ⟨hk, hv⟩ := h
  unfold mintern
  cases hl : mlookup m d with
  | some v => exact ⟨hk, hv⟩
  | none =>
    have hnot : d ∉ m.map Prod.fst := (mlookup_eq_none_iff m d).mp hl
    constructor
    · simpa [List.nodup_append, hk] using hnot
    · simp only [List.map_append, List.length_append, List.map_cons, List.map_nil,
        List.length_cons, List.length_nil]
      rw [hv, List.range'_1_concat]
      simp [Nat.add_comm]

theorem mrun_Minv (ds : List TypeDescr) :
    ∀ m, Minv m → Minv (mrun m ds).1 := by
  induction ds with
  | nil => intro m h; simpa [mrun] using h
  | cons d ds ih =>
    intro m h
    simpa [mrun] using ih (mintern m d).1 (Minv_mintern m d h)

theorem Minv_lookup_inj {m : List (TypeDescr × Nat)} (h : Minv m)
    {d e : TypeDescr} {v w : Nat} (hd : mlookup m d = some v)
    (he : mlookup m e = some w) (hne : d ≠ e) : v ≠ w := by
  intro heq
  subst heq
  have hd' := mlookup_mem hd
  have he' := mlookup_mem he
  have hsnd : (m.map Prod.snd).Nodup := by
    rw [h.2]; exact List.nodup_range' 1 m.length
  have := List.inj_on_of_nodup_map hsnd hd' he' rfl
  exact hne (congrArg Prod.fst this)

theorem countP_declsOf {m : List (TypeDescr × Nat)} {d : TypeDescr} {v : Nat}
    (h : Minv m) (hmem : (d, v) ∈ m) :
    (declsOf m).countP (matchesDescr d) = 1 := by
  unfold declsOf
  rw [List.countP_map]
  have hp : (matchesDescr d ∘ fun p : TypeDescr × Nat => p.1.toInstruction (some p.2)) =
      fun p : TypeDescr × Nat => p.1 == d :=
    funext fun p => matchesDescr_toInstruction d p.1 (some p.2)
  rw [hp]
  have hcount : m.countP (fun p => p.1 == d) = (m.map Prod.fst).count d := by
    rw [List.count, List.countP_map]
    rfl
  rw [hcount]
  exact List.count_eq_one_of_mem h.1 (List.mem_map.mpr ⟨(d, v), hmem, rfl⟩)

theorem mrun_ids (ds : List TypeDescr) :
    ∀ m, (mrun m ds).2.length = ds.length ∧
      (∀ i d, ds.get? i = some d →
        ∃ v, (mrun m ds).2.get? i = some v ∧ mlookup (mrun m ds).1 d = some v) := by
  induction ds with
  | nil => intro m; exact ⟨rfl, by intro i d h; simp at h⟩
  | cons d ds ih =>
    intro m
    obtain ⟨hlen, hget⟩ := ih (mintern m d).1
    constructor
    · simp [mrun, hlen]
    · intro i e he
      match i with
      | 0 =>
        simp only [List.get?] at he
        injection he with he
        subst he
        refine ⟨(mintern m d).2, by simp [mrun], ?_⟩
        simpa [mrun] using
          mrun_mono ds (mintern m d).1 d (mintern m d).2 (mintern_lookup_self m d)
      | Nat.succ i =>
        simp only [List.get?] at he
        obtain ⟨v, hv1, hv2⟩ := hget i e he
        exact ⟨v, by simpa [mrun] using hv1, by simpa [mrun] using hv2⟩

theorem intern_refines (b : Builder) (m : List (TypeDescr × Nat)) (d : TypeDescr)
    (hsec : b.module.types_global_values = declsOf m)
    (hnid : b.next_id = m.length + 1) (hbound : m.length + 2 < wordCap) :
    (b.intern d).1 = (mintern m d).2 ∧
    (b.intern d).2.module.types_global_values = declsOf (mintern m d).1 ∧
    (b.intern d).2.next_id = (mintern m d).1.length + 1 := by
  unfold Builder.intern mintern
  rw [hsec, find?_declsOf]
  cases hf : m.find? (fun p => p.1 == d) with
  | some p =>
    have : mlookup m d = some p.2 := by unfold mlookup; rw [hf]; rfl
    rw [this]
    simp [hsec, hnid, TypeDescr.toInstruction, Instruction.new]
  | none =>
    have : mlookup m d = none := by unfold mlookup; rw [hf]; rfl
    rw [this]
    refine ⟨by simp [Builder.id, hnid], ?_, ?_⟩
    · simp [Builder.id, hsec, hnid, declsOf]
    · simp only [Builder.id, Option.map_none']
      have : m.length + 1 + 1 < wordCap := hbound
      simp [hnid, Nat.mod_eq_of_lt this]

theorem runIntern_refines (ds : List TypeDescr) :
    ∀ (b : Builder) (m : List (TypeDescr × Nat)),
      b.module.types_global_values = declsOf m →
      b.next_id = m.length + 1 →
      m.length + ds.length + 1 < wordCap →
      (runIntern b ds).2 = (mrun m ds).2 ∧
      (runIntern b ds).1.module.types_global_values = declsOf (mrun m ds).1 ∧
      (runIntern b ds).1.next_id = (mrun m ds).1.length + 1 := by
  induction ds with
  | nil => intro b m h1 h2 _; exact ⟨rfl, h1, h2⟩
  | cons d ds ih =>
    intro b m h1 h2 hb
    have hbound : m.length + 2 < wordCap := by
      simp only [List.length_cons] at hb
      omega
    obtain ⟨hid, hsec, hnid⟩ := intern_refines b m d h1 h2 hbound
    have hgrow : (mintern m d).1.length ≤ m.length + 1 := by
      unfold mintern
      cases mlookup m d <;> simp
    obtain ⟨ih1, ih2, ih3⟩ := ih (b.intern d).2 (mintern m d).1 hsec hnid
      (by simp only [List.length_cons] at hb; omega)
    refine ⟨?_, by simpa [runIntern, mrun] using ih2,
      by simpa [runIntern, mrun] using ih3⟩
    simp [runIntern, mrun, hid, ih1]

/-- C1: for every sequence of interning requests on one builder, requests
with the same structural description return the same identifier and the
types/constants section ends up with exactly one declaration per
description occurring in the sequence; requests with distinct structural
descriptions return distinct identifiers. -/
theorem intern_dedup_and_injective (ds : List TypeDescr)
    (hbound : ds.length + 1 < wordCap) :
    (∀ i j d e, ds.get? i = some d → ds.get? j = some e →
      (d = e →
        (runIntern Builder.new ds).2.get? i = (runIntern Builder.new ds).2.get? j) ∧
      (d ≠ e →
        (runIntern Builder.new ds).2.get? i ≠ (runIntern Builder.new ds).2.get? j)) ∧
    (∀ d, d ∈ ds →
      ((runIntern Builder.new ds).1.module.types_global_values.countP
        (matchesDescr d)) = 1) := by
  obtain ⟨hids, hsec, _⟩ := runIntern_refines ds Builder.new [] rfl rfl
    (by simpa using hbound)
  have hminv : Minv (mrun ([] : List (TypeDescr × Nat)) ds).1 :=
    mrun_Minv ds [] Minv_nil
  obtain ⟨-, hget⟩ := mrun_ids ds ([] : List (TypeDescr × Nat))
  constructor
  · intro i j d e hi hj
    obtain ⟨v, hv1, hv2⟩ := hget i d hi
    obtain ⟨w, hw1, hw2⟩ := hget j e hj
    constructor
    · intro heq
      subst heq
      rw [hids, hv1, hw1, Option.some.injEq]
      rw [hv2] at hw2
      exact (Option.some.injEq v w).mp hw2
    · intro hne
      rw [hids, hv1, hw1]
      intro hc
      injection hc with hc
      exact Minv_lookup_inj hminv hv2 hw2 hne hc
  · intro d hd
    obtain ⟨i, hi⟩ := List.mem_iff_get?.mp hd
    obtain ⟨v, -, hv2⟩ := hget i d hi
    rw [hsec]
    exact countP_declsOf hminv (mlookup_mem hv2)

/-- Witness for C1: interning the 32-bit unsigned integer description twice
returns the same identifier both times and leaves exactly one declaration
for it in the types/constants section. -/
theorem intern_dedup_and_injective_witness :
    (runIntern Builder.new [TypeDescr.int 32 0, TypeDescr.int 32 0]).2.get? 0 =
      (runIntern Builder.new [TypeDescr.int 32 0, TypeDescr.int 32 0]).2.get? 1 ∧
    ((runIntern Builder.new
        [TypeDescr.int 32 0, TypeDescr.int 32 0]).1.module.types_global_values.countP
      (matchesDescr (TypeDescr.int 32 0))) = 1 :=
  ⟨((intern_dedup_and_injective [TypeDescr.int 32 0, TypeDescr.int 32 0]
      (by decide)).1 0 1 (TypeDescr.int 32 0) (TypeDescr.int 32 0) rfl rfl).1 rfl,
   (intern_dedup_and_injective [TypeDescr.int 32 0, TypeDescr.int 32 0]
      (by decide)).2 (TypeDescr.int 32 0) (by decide)⟩

theorem step_alloc (b : Builder) (op : BuilderOp) :
    step b op = none ∨
    (∃ b', step b op = some (b', []) ∧ b'.next_id = b.next_id) ∨
    (∃ b', step b op = some (b', [b.next_id]) ∧
      b'.next_id = (b.next_id + 1) % wordCap) := by
  cases op
  case internOp d =>
    cases hfind : b.module.types_global_values.find? (matchesDescr d) with
    | some i =>
      refine Or.inr (Or.inl ⟨b, ?_, rfl⟩)
      simp [step, Builder.intern, hfind]
    | none =>
      refine Or.inr (Or.inr ⟨(b.intern d).2, ?_, ?_⟩)
      · simp [step, Builder.intern, Builder.id, hfind]
      · simp [Builder.intern, Builder.id, hfind]
  all_goals
    rcases b with ⟨mod, nid, fo, bb⟩
    cases fo <;> cases bb <;>
      first
        | exact Or.inl rfl
        | exact Or.inr (Or.inl ⟨_, rfl, rfl⟩)
        | exact Or.inr (Or.inr ⟨_, rfl, rfl⟩)

theorem run_alloc (ops : List BuilderOp) :
    ∀ b : Builder, b.next_id + ops.length < wordCap →
      ∃ n, n ≤ ops.length ∧ (run b ops).2 = List.range' b.next_id n ∧
        (run b ops).1.next_id = b.next_id + n := by
  induction ops with
  | nil => intro b _; exact ⟨0, Nat.le_refl 0, by simp [run], by simp [run]⟩
  | cons op ops ih =>
    intro b h
    simp only [List.length_cons] at h ⊢
    rcases step_alloc b op with hs | ⟨b', hs, hn⟩ | ⟨b', hs, hn⟩
    · exact ⟨0, Nat.zero_le _, by simp [run, hs], by simp [run, hs]⟩
    · obtain ⟨n, h1, h2, h3⟩ := ih b' (by omega)
      refine ⟨n, by omega, ?_, ?_⟩
      · simp [run, hs, h2, hn]
      · simp [run, hs, h3, hn]
    · have hlt : b.next_id + 1 < wordCap := by omega
      have hn' : b'.next_id = b.next_id + 1 := by rw [hn, Nat.mod_eq_of_lt hlt]
      obtain ⟨n, h1, h2, h3⟩ := ih b' (by omega)
      refine ⟨n + 1, by omega, ?_, ?_⟩
      · simp only [run, hs]
        rw [List.range'_succ]
        simp [h2, hn']
      · simp only [run, hs]
        rw [h3, hn']
        omega

/-- C2: over any sequence of builder operations run on a fresh builder (as
long as the u32 counter cannot wrap), the allocated identifiers are exactly
`1, 2, 3, ...` in order: allocation starts at 1, each allocated identifier
is exactly one greater than the previous one, and no identifier is ever
repeated. -/
theorem ids_consecutive_from_one (ops : List BuilderOp)
    (hbound : ops.length + 1 < wordCap) :
    (run Builder.new ops).2 = List.range' 1 (run Builder.new ops).2.length ∧
    (∀ i v, (run Builder.new ops).2.get? i = some v → v = i + 1) ∧
    (run Builder.new ops).2.Pairwise (· < ·) := by
  obtain ⟨n, -, h2, -⟩ := run_alloc ops Builder.new (by simp only [Builder.new]; omega)
  rw [show Builder.new.next_id = 1 from rfl] at h2
  have hlen : (run Builder.new ops).2.length = n := by rw [h2]; simp
  refine ⟨by rw [hlen, h2], ?_, by rw [h2]; exact List.pairwise_lt_range' 1 n⟩
  intro i v hv
  rw [h2] at hv
  have hi : i < n := by
    by_contra hge
    rw [List.get?_eq_none.mpr (by simpa using Nat.le_of_not_lt hge)] at hv
    exact Option.noConfusion hv
  rw [List.get?_eq_getElem?, List.getElem?_range' 1 1 hi] at hv
  injection hv with hv
  omega

/-- Witness for C2: a concrete run allocating three identifiers yields
exactly `[1, 2, 3]`. -/
theorem ids_consecutive_from_one_witness :
    (run Builder.new [BuilderOp.decorationGroupOp, BuilderOp.capabilityOp 0,
      BuilderOp.extInstImportOp "GLSL.std.450", BuilderOp.decorateOp 1 0 []]).2 =
      List.range' 1 (run Builder.new [BuilderOp.decorationGroupOp,
        BuilderOp.capabilityOp 0, BuilderOp.extInstImportOp "GLSL.std.450",
        BuilderOp.decorateOp 1 0 []]).2.length :=
  (ids_consecutive_from_one [BuilderOp.decorationGroupOp, BuilderOp.capabilityOp 0,
    BuilderOp.extInstImportOp "GLSL.std.450", BuilderOp.decorateOp 1 0 []]
    (by decide)).1

/-! Concrete scenario states used by several theorems below. -/

/-- Builder with a function open: fresh builder after a successful
`begin_function(1, NONE, 9)`. -/
def fnOpen : Builder := (Builder.new.begin_function 1 0 9).bOf

/-- Builder with a function and a basic block open. -/
def fnBlockOpen : Builder := fnOpen.begin_basic_block.bOf

/-- Builder after calling `end_function` while a block was still open:
the function slot is empty but the block slot is still occupied. -/
def orphanBlock : Builder := fnBlockOpen.end_function.bOf

/-- C3 counterexample: with a function open and a basic block still open,
`end_function` succeeds — it is not reported as `MismatchedFunctionEnd`
(nor as any error). -/
theorem end_function_open_block_succeeds :
    fnBlockOpen.function.isSome = true ∧ fnBlockOpen.basic_block.isSome = true ∧
    fnBlockOpen.end_function.isOk = true := by
  decide

/-- C3 amended: `end_function` with a function open succeeds even when a
basic block is still open (the open block is left behind, not part of the
finished function); `end_function` with no function open fails with
`MismatchedFunctionEnd`. -/
theorem end_function_cases (b : Builder) (f : Function) :
    (b.function = some f →
      b.end_function = .ok () { b with
        function := none,
        module := { b.module with functions := b.module.functions ++
          [{ f with fend := some (Instruction.new .FunctionEnd none none []) }] } }) ∧
    (b.function = none → b.end_function = .err .MismatchedFunctionEnd b) := by
  constructor
  · intro h
    simp [Builder.end_function, h]
  · intro h
    simp [Builder.end_function, h]

/-- Witness for C3's amended statement at a concrete input: a fresh builder
has no open function, so `end_function` fails with `MismatchedFunctionEnd`. -/
theorem end_function_cases_witness :
    Builder.new.end_function = BuildResult.err Error.MismatchedFunctionEnd Builder.new :=
  (end_function_cases Builder.new Function.new).2 rfl

/-- C4: evaluation of the end-to-end scenario. After interning void (id 1),
`begin_function` returns 2, `begin_basic_block` returns 3, the return
terminator and `end_function` succeed, and the module holds one function
with one block whose terminator is the return instruction — but the
block's label instruction carries no result identifier at all (its
`result_id` is `none`, not the allocated id 3): the id allocated by
`begin_basic_block` is returned yet never stored. -/
theorem scenario_label_id_dropped :
    (Builder.new.intern TypeDescr.void).1 = 1 ∧
    ((Builder.new.intern TypeDescr.void).2.begin_function 1 0 9).valOf = some 2 ∧
    ((Builder.new.intern TypeDescr.void).2.begin_function
        1 0 9).bOf.begin_basic_block.valOf = some 3 ∧
    ((Builder.new.intern TypeDescr.void).2.begin_function
        1 0 9).bOf.begin_basic_block.bOf.ret.isOk = true ∧
    ((Builder.new.intern TypeDescr.void).2.begin_function
        1 0 9).bOf.begin_basic_block.bOf.ret.bOf.end_function.isOk = true ∧
    (((Builder.new.intern TypeDescr.void).2.begin_function
        1 0 9).bOf.begin_basic_block.bOf.ret.bOf.end_function.bOf.module.functions.map
      (fun f => f.basic_blocks.map
        (fun bb => (bb.label, bb.instructions)))) =
      [[(some (Instruction.new Op.Label none none []),
         [Instruction.new Op.Return none none []])]] := by
  decide

/-- C5 counterexample: from the reachable state with a block open but no
function open (obtained by ending the function while the block was open),
emitting a terminator does not append-move-close — the builder panics. -/
theorem terminator_orphan_block_panics :
    orphanBlock.basic_block.isSome = true ∧
    orphanBlock.end_basic_block (Instruction.new Op.Return none none []) =
      BuildResult.fatal := by
  decide

/-- C5 amended: terminator emission fails with `MismatchedTerminator`
whenever no block is open; with both a block and its enclosing function
open it appends the terminator as the block's last instruction, moves the
finished block to the end of the function's block list, and closes the
block; with a block open but no function open the builder panics. -/
theorem end_basic_block_cases (b : Builder) (inst : Instruction) :
    (b.basic_block = none →
      b.end_basic_block inst = .err .MismatchedTerminator b) ∧
    (∀ bb f, b.basic_block = some bb → b.function = some f →
      b.end_basic_block inst = .ok () { b with
        basic_block := none,
        function := some { f with basic_blocks := f.basic_blocks ++
          [{ bb with instructions := bb.instructions ++ [inst] }] } }) ∧
    (∀ bb, b.basic_block = some bb → b.function = none →
      b.end_basic_block inst = .fatal) := by
  refine ⟨fun h => ?_, fun bb f h1 h2 => ?_, fun bb h1 h2 => ?_⟩
  · simp [Builder.end_basic_block, h]
  · simp [Builder.end_basic_block, h1, h2]
  · simp [Builder.end_basic_block, h1, h2]

/-- Witness for C5's amended statement: a fresh builder has no open block,
so emitting a terminator fails with `MismatchedTerminator`. -/
theorem end_basic_block_cases_witness :
    Builder.new.end_basic_block (Instruction.new Op.Return none none []) =
      BuildResult.err Error.MismatchedTerminator Builder.new :=
  (end_basic_block_cases Builder.new (Instruction.new Op.Return none none [])).1 rfl

/-- C6: every fallible builder operation that returns an error leaves the
builder — id counter, module sections, in-progress function and open
block — exactly as it was before the call. -/
theorem error_leaves_builder_unchanged (b b' : Builder) (rt c ft : Nat)
    (inst : Instruction) (e : Error) :
    (b.begin_function rt c ft = .err e b' → b' = b) ∧
    (b.end_function = .err e b' → b' = b) ∧
    (b.begin_basic_block = .err e b' → b' = b) ∧
    (b.end_basic_block inst = .err e b' → b' = b) := by
  rcases b with ⟨mod, nid, fo, bb⟩
  cases fo <;> cases bb <;>
    refine ⟨fun h => ?_, fun h => ?_, fun h => ?_, fun h => ?_⟩ <;>
      cases h <;> rfl

/-- Witness for C6: at a fresh builder, `end_function` errors and the
post-state equals the pre-state. -/
theorem error_leaves_builder_unchanged_witness : Builder.new = Builder.new :=
  (error_leaves_builder_unchanged Builder.new Builder.new 0 0 0
    (Instruction.new Op.Return none none []) Error.MismatchedFunctionEnd).2.1 rfl

/-- C7: `begin_basic_block` fails with `DetachedBasicBlock` when no function
is open, fails with `NestedBasicBlock` when a function is open but a block
is already open, and otherwise succeeds, returning the freshly allocated
identifier (the current counter value) and opening a block. -/
theorem begin_basic_block_cases (b : Builder) :
    (b.function = none → b.begin_basic_block = .err .DetachedBasicBlock b) ∧
    (∀ f bb, b.function = some f → b.basic_block = some bb →
      b.begin_basic_block = .err .NestedBasicBlock b) ∧
    (∀ f, b.function = some f → b.basic_block = none →
      b.begin_basic_block = .ok b.next_id { b with
        next_id := (b.next_id + 1) % wordCap,
        basic_block := some { BasicBlock.new with
          label := some (Instruction.new .Label none none []) } }) := by
  refine ⟨fun h => ?_, fun f bb h1 h2 => ?_, fun f h1 h2 => ?_⟩
  · simp [Builder.begin_basic_block, h]
  · simp [Builder.begin_basic_block, h1, h2]
  · simp [Builder.begin_basic_block, Builder.id, h1, h2]

/-- Witness for C7: on a fresh builder the call is detached; with a function
open it succeeds and returns the next identifier, 2. -/
theorem begin_basic_block_cases_witness :
    Builder.new.begin_basic_block =
      BuildResult.err Error.DetachedBasicBlock Builder.new ∧
    fnOpen.begin_basic_block = BuildResult.ok fnOpen.next_id { fnOpen with
      next_id := (fnOpen.next_id + 1) % wordCap,
      basic_block := some { BasicBlock.new with
        label := some (Instruction.new .Label none none []) } } :=
  ⟨(begin_basic_block_cases Builder.new).1 rfl,
   (begin_basic_block_cases fnOpen).2.2
     { fdef := some (Instruction.new Op.Function (some 1) (some 1)
         [Operand.FunctionControl 0, Operand.IdRef 9]),
       fend := none, basic_blocks := [] } rfl rfl⟩

/-- C8: `decorate(target, dec, [])` followed by
`group_decorate(grp, [t1, t2])` appends exactly two instructions to the
annotations section, in call order; each carries a freshly allocated
result identifier (the two successive counter values), and the two
returned identifiers are distinct. -/
theorem decorate_then_group_decorate (b : Builder) (target dec grp t1 t2 : Nat)
    (h : b.next_id < wordCap) :
    ((b.decorate target dec []).2.group_decorate grp [t1, t2]).2.module.annotations =
      b.module.annotations ++
        [Instruction.new Op.Decorate none (some (b.decorate target dec []).1)
           [Operand.IdRef target, Operand.Decoration dec],
         Instruction.new Op.GroupDecorate none
           (some ((b.decorate target dec []).2.group_decorate grp [t1, t2]).1)
           [Operand.IdRef grp, Operand.IdRef t1, Operand.IdRef t2]] ∧
    (b.decorate target dec []).1 = b.next_id ∧
    ((b.decorate target dec []).2.group_decorate grp [t1, t2]).1 =
      (b.next_id + 1) % wordCap ∧
    (b.decorate target dec []).1 ≠
      ((b.decorate target dec []).2.group_decorate grp [t1, t2]).1 := by
  refine ⟨?_, rfl, rfl, ?_⟩
  · simp [Builder.decorate, Builder.group_decorate, Builder.id, Instruction.new]
  · show b.next_id ≠ (b.next_id + 1) % wordCap
    intro heq
    rcases Nat.lt_or_ge (b.next_id + 1) wordCap with hlt | hge
    · rw [Nat.mod_eq_of_lt hlt] at heq
      omega
    · have heqc : b.next_id + 1 = wordCap := by omega
      rw [heqc, Nat.mod_self] at heq
      simp only [wordCap] at heqc heq
      omega

/-- Witness for C8 at a fresh builder: the two returned identifiers are
distinct. -/
theorem decorate_then_group_decorate_witness :
    (Builder.new.decorate 5 0 []).1 ≠
      ((Builder.new.decorate 5 0 []).2.group_decorate 7 [8, 9]).1 :=
  (decorate_then_group_decorate Builder.new 5 0 7 8 9 (by decide)).2.2.2

/-- C9: `module()` returns exactly the module accumulated so far; opening a
function or a basic block never touches the module's function list, so the
in-progress function and open block do not appear in the returned module. -/
theorem module_discards_in_progress (b : Builder) (rt c ft : Nat) :
    b.module' = b.module ∧
    (b.begin_function rt c ft).bOf.module'.functions = b.module.functions ∧
    b.begin_basic_block.bOf.module'.functions = b.module.functions := by
  rcases b with ⟨mod, nid, fo, bb⟩
  cases fo <;> cases bb <;> exact ⟨rfl, rfl, rfl⟩

/-- C10: `memory_model` stores its instruction into the module's single
memory-model slot: after a call the slot holds exactly that call's
instruction, every other module section and builder field is unchanged,
and after any further sequence of calls the slot holds exactly the most
recent call's instruction. -/
theorem memory_model_single_slot (b : Builder) (am mm : Nat) :
    (b.memory_model am mm).module.memory_model =
      some (Instruction.new Op.MemoryModel none none
        [Operand.AddressingModel am, Operand.MemoryModel mm]) ∧
    (b.memory_model am mm).module.capabilities = b.module.capabilities ∧
    (b.memory_model am mm).module.extensions = b.module.extensions ∧
    (b.memory_model am mm).module.ext_inst_imports = b.module.ext_inst_imports ∧
    (b.memory_model am mm).module.entry_points = b.module.entry_points ∧
    (b.memory_model am mm).module.execution_modes = b.module.execution_modes ∧
    (b.memory_model am mm).module.annotations = b.module.annotations ∧
    (b.memory_model am mm).module.types_global_values = b.module.types_global_values ∧
    (b.memory_model am mm).module.functions = b.module.functions ∧
    (b.memory_model am mm).next_id = b.next_id ∧
    (b.memory_model am mm).function = b.function ∧
    (b.memory_model am mm).basic_block = b.basic_block ∧
    (∀ calls : List (Nat × Nat),
      (calls.foldl (fun acc p => acc.memory_model p.1 p.2)
        (b.memory_model am mm)).module.memory_model =
      some (Instruction.new Op.MemoryModel none none
        [Operand.AddressingModel (calls.getLastD (am, mm)).1,
         Operand.MemoryModel (calls.getLastD (am, mm)).2])) := by
  refine ⟨rfl, rfl, rfl, rfl, rfl, rfl, rfl, rfl, rfl, rfl, rfl, rfl, ?_⟩
  intro calls
  induction calls generalizing b am mm with
  | nil => rfl
  | cons p rest ih =>
    have hrepl : (b.memory_model am mm).memory_model p.1 p.2 =
        b.memory_model p.1 p.2 := rfl
    rw [List.getLastD_cons]
    simpa [List.foldl_cons, hrepl] using ih b p.1 p.2

end Rspirv
